import Mathlib

/-!
Verification of the `image_tool` repository core: URL normalization
(`photo_extractor.py`, `google_maps_extractor.py`), candidate filtering and
deduplication, the scroll-harvesting loops, and the image transformation
pipeline (`image_processor.py`).

Python strings are modelled as Lean `String` (a list of characters); Python
regular-expression substitution (`re.sub`) is modelled, for each concrete
pattern of the source, by an executable leftmost non-overlapping rewriting
function over the character list.
-/

namespace ImageTool

/-- The single-quote character (used by the hotpepper pattern `[^"\x27]`). -/
def squote : Char := Char.ofNat 39

/-- Models Python `str.lower()` (the URLs handled here are ASCII; `Char.toLower`
lowers exactly the ASCII uppercase letters). -/
def pyLower (s : String) : String := ⟨s.data.map Char.toLower⟩

/-- Case-insensitive character equality (ASCII). -/
def ciEq (a b : Char) : Bool := a.toLower = b.toLower

/-- Models Python `needle in hay` (substring containment) on character lists. -/
def listContainsSub (needle : List Char) : List Char → Bool
  | [] => needle.isEmpty
  | c :: cs => needle.isPrefixOf (c :: cs) || listContainsSub needle cs

/-- Models Python `pat in hay` (substring test, case sensitive). -/
def strContains (hay pat : String) : Bool := listContainsSub pat.data hay.data

/-- Models Python `s.startswith(p)`. -/
def strStarts (s pre : String) : Bool := pre.data.isPrefixOf s.data

/-- Models Python `s.rstrip(chars)`: removes trailing characters drawn from
`chars`. -/
def rstripSet (s : String) (chars : List Char) : String :=
  ⟨(s.data.reverse.dropWhile (fun c => chars.contains c)).reverse⟩

/-- Case-insensitively match `pat` as a prefix of `l`; on success return the
matched text (with its original case) and the rest. -/
def ciTake (pat : List Char) (l : List Char) : Option (List Char × List Char) :=
  match pat, l with
  | [], rest => some ([], rest)
  | _ :: _, [] => none
  | p :: ps, c :: cs =>
    if ciEq p c then (ciTake ps cs).map (fun t => (c :: t.1, t.2)) else none

/-- One generic pass of Python `pattern.sub(replacement, s)`: scan left to
right; where the matcher fires, emit the replacement and continue after the
match, otherwise keep the character. `fuel` (initially the string length)
bounds the recursion; every matcher used here consumes at least one
character, so the fuel never runs out. -/
def subAll (m : List Char → Option (List Char × List Char)) :
    Nat → List Char → List Char
  | 0, l => l
  | _ + 1, [] => []
  | fuel + 1, c :: cs =>
    match m (c :: cs) with
    | some (rep, rest) => rep ++ subAll m fuel rest
    | none => c :: subAll m fuel cs

/-- Python `pattern.sub(replacement, s)` for a concrete matcher. -/
def pySub (m : List Char → Option (List Char × List Char)) (s : String) : String :=
  ⟨subAll m s.data.length s.data⟩

/-- Matcher for a case-insensitive literal pattern with a fixed replacement. -/
def litCI (pat rep : String) (l : List Char) : Option (List Char × List Char) :=
  (ciTake pat.data l).map (fun t => (rep.data, t.2))

/-- First index of `pat` as a sublist (substring search helper). -/
def findSubIdx (pat : List Char) : List Char → Option Nat
  | [] => if pat.isEmpty then some 0 else none
  | c :: cs =>
    if pat.isPrefixOf (c :: cs) then some 0 else (findSubIdx pat cs).map (· + 1)

/-- Scheme of `urllib.parse.urlparse(b)`, modelled for the common
`scheme://netloc/...` shape of the page URLs this program handles. -/
def urlparseScheme (b : String) : String :=
  match findSubIdx "://".data b.data with
  | some i => ⟨b.data.take i⟩
  | none => ""

/-- Netloc of `urllib.parse.urlparse(b)`, modelled for the common
`scheme://netloc/...` shape: the text after `://` up to the first `/`, `?` or
`#`. -/
def urlparseNetloc (b : String) : String :=
  match findSubIdx "://".data b.data with
  | some i =>
    ⟨(b.data.drop (i + 3)).takeWhile (fun c => ¬ (c = '/' ∨ c = '?' ∨ c = '#'))⟩
  | none => ""

/-- Models `urllib.parse.urljoin(base, url)` for the common case of a relative
path reference against an absolute base: drop the last path segment of the
base and append the reference. No theorem below depends on this function's
values. -/
def urljoin (base url : String) : String :=
  match findSubIdx "://".data base.data with
  | some i =>
    let hostLen := ((base.data.drop (i + 3)).takeWhile (fun c => c ≠ '/')).length
    let prefixLen := i + 3 + hostLen
    let path := base.data.drop prefixLen
    let keep := (path.reverse.dropWhile (fun c => c ≠ '/')).reverse
    let keep := if keep.isEmpty then ['/'] else keep
    ⟨base.data.take prefixLen ++ keep ++ url.data⟩
  | none => url

namespace GoogleMapsExtractor

/-!
Embedding of `google_maps_extractor.py`.

`GOOGLE_IMAGE_SIZE_PATTERNS` (lines 18-24) and the functions
`to_high_res_google_url` (27-40) and `normalize_image_url` (43-56).
-/

/-- Matcher for `=w\d+-h\d+` (re.I), replacement `=s2048`. -/
def mWH (l : List Char) : Option (List Char × List Char) :=
  match l with
  | '=' :: c :: rest =>
    if ciEq c 'w' then
      let (ds, r1) := rest.span Char.isDigit
      if ds.isEmpty then none
      else
        match r1 with
        | '-' :: c2 :: r2 =>
          if ciEq c2 'h' then
            let (ds2, r3) := r2.span Char.isDigit
            if ds2.isEmpty then none else some ("=s2048".data, r3)
          else none
        | _ => none
    else none
  | _ => none

/-- Matcher for `=<letter>\d+` (re.I), replacement `=s2048`; instantiated with
the letters `w`, `h`, `s` of the source patterns. -/
def mEqLetter (letter : Char) (l : List Char) : Option (List Char × List Char) :=
  match l with
  | '=' :: c :: rest =>
    if ciEq c letter then
      let (ds, r1) := rest.span Char.isDigit
      if ds.isEmpty then none else some ("=s2048".data, r1)
    else none
  | _ => none

/-- Matcher for `/s\d+/` (re.I), replacement `/s2048/`. -/
def mSlashS (l : List Char) : Option (List Char × List Char) :=
  match l with
  | '/' :: c :: rest =>
    if ciEq c 's' then
      let (ds, r1) := rest.span Char.isDigit
      if ds.isEmpty then none
      else
        match r1 with
        | '/' :: r2 => some ("/s2048/".data, r2)
        | _ => none
    else none
  | _ => none

/-- `to_high_res_google_url` (google_maps_extractor.py lines 27-40). -/
def to_high_res_google_url (url : String) : String :=
  if url = "" ∨ ¬ strContains url "googleusercontent.com" then url
  else
    let r := pySub mWH url
    let r := pySub (mEqLetter 'w') r
    let r := pySub (mEqLetter 'h') r
    let r := pySub (mEqLetter 's') r
    let r := pySub mSlashS r
    if ¬ strContains r "=s" ∧ ¬ strContains r "=w" ∧ ¬ strContains r "/s" then
      if strContains r "?" then rstripSet r ['&'] ++ "&s2048"
      else r ++ "=s2048"
    else r

/-- `normalize_image_url` (google_maps_extractor.py lines 43-56). -/
def normalize_image_url (url base_url : String) : String :=
  if url = "" then ""
  else
    let u :=
      if strStarts url "//" then "https:" ++ url
      else if strStarts url "/" then
        urlparseScheme base_url ++ "://" ++ urlparseNetloc base_url ++ url
      else if ¬ (strStarts url "http://" || strStarts url "https://") then
        urljoin base_url url
      else url
    if strContains u "googleusercontent.com" then to_high_res_google_url u else u

end GoogleMapsExtractor

namespace PhotoExtractor

/-!
Embedding of `photo_extractor.py`: `HIGH_RES_PATTERNS` (lines 14-27),
`to_high_res_url` (30-39) and `normalize_image_url` (42-53).
-/

/-- Matcher for the extension alternation `(jpg|jpeg|png|webp)` (re.I),
alternatives tried in the source's order; returns the matched text with its
original case. -/
def extAlt (l : List Char) : Option (List Char × List Char) :=
  (ciTake "jpg".data l) <|> (ciTake "jpeg".data l) <|>
    (ciTake "png".data l) <|> (ciTake "webp".data l)

/-- Matcher for `_s(\d*)\.(jpg|jpeg|png|webp)` / `_m(\d*)\.(...)` (re.I),
replacement `_l\1.\2`; `letter` is `s` or `m`. The digit run `\d*` is greedy
and, since a digit is never a dot, never backtracks. -/
def mSuffix (letter : Char) (l : List Char) : Option (List Char × List Char) :=
  match l with
  | '_' :: c :: rest =>
    if ciEq c letter then
      let (ds, r1) := rest.span Char.isDigit
      match r1 with
      | '.' :: r2 =>
        match extAlt r2 with
        | some (ext, r3) => some ('_' :: 'l' :: ds ++ '.' :: ext, r3)
        | none => none
      | _ => none
    else none
  | _ => none

/-- Matcher for `_thumb\.(jpg|jpeg|png|webp)` (re.I), replacement `.\1`. -/
def mThumb (l : List Char) : Option (List Char × List Char) :=
  match ciTake "_thumb.".data l with
  | some (_, r1) =>
    match extAlt r1 with
    | some (ext, r2) => some ('.' :: ext, r2)
    | none => none
  | none => none

/-- Scanner for the lazy middle `[^"\x27]*?` of the hotpepper pattern: at each
position first try to match `_[sSmM]\.` (the lazy quantifier prefers the
shortest middle), otherwise absorb one non-quote character. `acc` carries
group 1's text. -/
def hotpScan (acc : List Char) : List Char → Option (List Char × List Char)
  | [] => none
  | '_' :: c1 :: '.' :: r =>
    if ciEq c1 's' || ciEq c1 'm' then some (acc ++ "_L.".data, r)
    else hotpScan (acc ++ ['_']) (c1 :: '.' :: r)
  | c :: cs =>
    if c = '"' ∨ c = squote then none
    else hotpScan (acc ++ [c]) cs

/-- Matcher for `(imgfp\.hotp\.jp[^"\x27]*?)_[sSmM]\.` (re.I), replacement
`\1_L.`. -/
def hotpMatch (l : List Char) : Option (List Char × List Char) :=
  match ciTake "imgfp.hotp.jp".data l with
  | some (pre, rest) => hotpScan pre rest
  | none => none

/-- Match one alternative keyword of `(w|width|h|height|size)` (re.I) followed
by `=\d+`; returns the rest after the digits. -/
def paramAfter (k : String) (rest : List Char) : Option (List Char) :=
  match ciTake k.data rest with
  | some (_, r1) =>
    match r1 with
    | '=' :: r2 =>
      let (ds, r3) := r2.span Char.isDigit
      if ds.isEmpty then none else some r3
    | _ => none
  | none => none

/-- Matcher for `[?&](w|width|h|height|size)=\d+` (re.I), replacement empty;
the alternation is tried in the source's order with backtracking (`w` fails on
`width=5` because no `=` follows, so `width` is tried next). -/
def mQueryParam (l : List Char) : Option (List Char × List Char) :=
  match l with
  | c :: rest =>
    if c = '?' ∨ c = '&' then
      match (paramAfter "w" rest) <|> (paramAfter "width" rest) <|>
          (paramAfter "h" rest) <|> (paramAfter "height" rest) <|>
          (paramAfter "size" rest) with
      | some r => some ([], r)
      | none => none
    else none
  | [] => none

/-- Matcher for the cleanup pattern `\?&+`, replacement `?`. -/
def mQAmp (l : List Char) : Option (List Char × List Char) :=
  match l with
  | '?' :: rest =>
    let (amps, r1) := rest.span (fun c => c = '&')
    if amps.isEmpty then none else some (['?'], r1)
  | _ => none

/-- `to_high_res_url` (photo_extractor.py lines 30-39): the eight
`HIGH_RES_PATTERNS` substitutions in order, then the `?&` cleanup and the
trailing `rstrip('?&')`. -/
def to_high_res_url (url : String) : String :=
  if url = "" ∨ ¬ (strStarts url "http://" || strStarts url "https://") then url
  else
    let r := pySub (litCI "320x320_rect_" "1024x1024_rect_") url
    let r := pySub (litCI "640x640_rect_" "1024x1024_rect_") r
    let r := pySub (litCI "480x480_rect_" "1024x1024_rect_") r
    let r := pySub (mSuffix 's') r
    let r := pySub (mSuffix 'm') r
    let r := pySub mThumb r
    let r := pySub hotpMatch r
    let r := pySub mQueryParam r
    let r := pySub mQAmp r
    rstripSet r ['?', '&']

/-- `normalize_image_url` (photo_extractor.py lines 42-53). -/
def normalize_image_url (url base_url : String) : String :=
  if url = "" then ""
  else
    let u :=
      if strStarts url "//" then "https:" ++ url
      else if strStarts url "/" then
        urlparseScheme base_url ++ "://" ++ urlparseNetloc base_url ++ url
      else if ¬ (strStarts url "http://" || strStarts url "https://") then
        urljoin base_url url
      else url
    to_high_res_url u

end PhotoExtractor

/-- One discovered photo: resolved best-resolution URL plus the raw URL it was
observed under (`{"url": full_url, "thumb_url": url}`). -/
structure PhotoDescriptor where
  url : String
  thumb_url : String
deriving DecidableEq

/-- The mutable pair `(results, seen_urls)` threaded through the candidate
filter. The Python `set` is modelled as a list used only through membership
tests and insertion. -/
structure ExtState where
  results : List PhotoDescriptor
  seen : List String
deriving DecidableEq

namespace PhotoExtractor

/-- `_add_image_url` (photo_extractor.py lines 97-116): candidate filter and
deduplicator of the Tabelog/Hotpepper extractor. Early `return` is modelled
by returning the state unchanged. -/
def addImageUrl (st : ExtState) (url base_url : String) : ExtState :=
  if url = "" ∨ url.length < 20 then st
  else if strContains (pyLower url) "pixel" ∨ strContains (pyLower url) "tracking" ∨
      strContains (pyLower url) "blank" then st
  else if strContains (pyLower url) "avatar" ∨ strContains (pyLower url) "icon" then st
  else if strContains (pyLower url) "imgvc.com" then st
  else if strContains url "150x150" ∨ strContains url "100x100" then st
  else if ¬ ([".jpg", ".jpeg", ".png", ".webp"].any
      (fun x => strContains (pyLower url) x)) then st
  else
    let full_url := normalize_image_url url base_url
    if full_url ∈ st.seen then st
    else ⟨st.results ++ [⟨full_url, url⟩], full_url :: st.seen⟩

end PhotoExtractor

namespace GoogleMapsExtractor

/-- `_add_image_url` (google_maps_extractor.py lines 59-80): candidate filter
and deduplicator of the Google Maps extractor; returns the continue signal
(`False` once `max_count` is reached) together with the updated state. -/
def addImageUrl (st : ExtState) (url base_url : String) (max_count : Int) :
    Bool × ExtState :=
  if (st.results.length : Int) ≥ max_count then (false, st)
  else if url = "" ∨ url.length < 20 then (true, st)
  else if ["pixel", "tracking", "blank", "avatar", "icon", "1x1"].any
      (fun x => strContains (pyLower url) x) then (true, st)
  else if ¬ ([".jpg", ".jpeg", ".png", "googleusercontent.com"].any
      (fun x => strContains (pyLower url) x)) then (true, st)
  else
    let full_url := normalize_image_url url base_url
    if full_url ∈ st.seen then (true, st)
    else
      let st' : ExtState := ⟨st.results ++ [⟨full_url, url⟩], full_url :: st.seen⟩
      (decide ((st'.results.length : Int) < max_count), st')

end GoogleMapsExtractor

/-- The `url` fields of the collected descriptors, in order. -/
def resultUrls (st : ExtState) : List String := st.results.map (fun d => d.url)

/-- The deduplicator invariant: collected `url`s are pairwise distinct and
every collected `url` has been marked seen. -/
def Inv (st : ExtState) : Prop :=
  (resultUrls st).Nodup ∧ ∀ d ∈ st.results, d.url ∈ st.seen

instance (st : ExtState) : Decidable (Inv st) := by
  unfold Inv; infer_instance

/-- Behaviour of the Tabelog/Hotpepper filter: either the state is unchanged,
or the candidate passed every check, was not yet seen, and exactly one
descriptor keyed on the normalized URL is appended. -/
theorem photo_add_spec (st : ExtState) (u b : String) :
    PhotoExtractor.addImageUrl st u b = st ∨
    (PhotoExtractor.normalize_image_url u b ∉ st.seen ∧
      PhotoExtractor.addImageUrl st u b =
        ⟨st.results ++ [⟨PhotoExtractor.normalize_image_url u b, u⟩],
          PhotoExtractor.normalize_image_url u b :: st.seen⟩) := by
  simp only [PhotoExtractor.addImageUrl]
  repeat' split
  all_goals first
    | exact Or.inl rfl
    | exact Or.inr ⟨by assumption, rfl⟩

/-- Behaviour of the Google Maps filter: the capped case, the
unchanged-with-continue case, and the append case. -/
theorem google_add_spec (st : ExtState) (u b : String) (m : Int) :
    (m ≤ (st.results.length : Int) ∧
      GoogleMapsExtractor.addImageUrl st u b m = (false, st)) ∨
    ((st.results.length : Int) < m ∧
      GoogleMapsExtractor.addImageUrl st u b m = (true, st)) ∨
    ((st.results.length : Int) < m ∧
      GoogleMapsExtractor.normalize_image_url u b ∉ st.seen ∧
      GoogleMapsExtractor.addImageUrl st u b m =
        (decide (((st.results ++
            [PhotoDescriptor.mk (GoogleMapsExtractor.normalize_image_url u b) u]).length : Int) < m),
          ⟨st.results ++ [PhotoDescriptor.mk (GoogleMapsExtractor.normalize_image_url u b) u],
            GoogleMapsExtractor.normalize_image_url u b :: st.seen⟩)) := by
  simp only [GoogleMapsExtractor.addImageUrl]
  repeat' split
  all_goals first
    | exact Or.inl ⟨by omega, rfl⟩
    | exact Or.inr (Or.inl ⟨by omega, rfl⟩)
    | exact Or.inr (Or.inr ⟨by omega, by assumption, rfl⟩)

/-- Appending an unseen normalized URL preserves the invariant. -/
theorem inv_append (st : ExtState) (n u : String) (hInv : Inv st)
    (hn : n ∉ st.seen) :
    Inv ⟨st.results ++ [⟨n, u⟩], n :: st.seen⟩ := by
  obtain ⟨hnd, hseen⟩ := hInv
  constructor
  · simp only [resultUrls, List.map_append, List.map_cons, List.map_nil,
      List.nodup_append] at *
    refine ⟨hnd, List.nodup_singleton n, ?_⟩
    intro a ha
    simp only [List.mem_singleton]
    intro hEq
    subst hEq
    obtain ⟨d, hd, hdu⟩ := List.mem_map.mp ha
    exact hn (hdu ▸ hseen d hd)
  · intro d hd
    rcases List.mem_append.mp hd with h | h
    · exact List.mem_cons_of_mem _ (hseen d h)
    · simp only [List.mem_singleton] at h
      subst h
      exact List.mem_cons_self _ _

/-- The Tabelog/Hotpepper filter preserves the invariant. -/
theorem photo_inv_preserved (st : ExtState) (u b : String) (h : Inv st) :
    Inv (PhotoExtractor.addImageUrl st u b) := by
  rcases photo_add_spec st u b with hEq | ⟨hn, hEq⟩
  · rw [hEq]; exact h
  · rw [hEq]; exact inv_append st _ u h hn

/-- Feeding the same raw URL to the Tabelog/Hotpepper filter twice leaves the
state of the second call unchanged. -/
theorem photo_add_idem (st : ExtState) (u b : String) :
    PhotoExtractor.addImageUrl (PhotoExtractor.addImageUrl st u b) u b =
      PhotoExtractor.addImageUrl st u b := by
  rcases photo_add_spec st u b with hEq | ⟨hn, hEq⟩
  · rw [hEq]; exact hEq
  · rcases photo_add_spec (PhotoExtractor.addImageUrl st u b) u b with h2 | ⟨hn2, h2⟩
    · exact h2
    · exact absurd (by rw [hEq]; exact List.mem_cons_self _ _) hn2

/-- Two raw URLs with the same normalization produce at most one new
descriptor in the Tabelog/Hotpepper filter. -/
theorem photo_pair_growth (st : ExtState) (u1 u2 b : String)
    (huu : PhotoExtractor.normalize_image_url u1 b =
      PhotoExtractor.normalize_image_url u2 b) :
    (PhotoExtractor.addImageUrl (PhotoExtractor.addImageUrl st u1 b) u2 b).results.length ≤
      st.results.length + 1 := by
  have len1 : ∀ s u, (PhotoExtractor.addImageUrl s u b).results.length ≤
      s.results.length + 1 := by
    intro s u
    rcases photo_add_spec s u b with hEq | ⟨_, hEq⟩ <;> simp [hEq]
  rcases photo_add_spec (PhotoExtractor.addImageUrl st u1 b) u2 b with h2 | ⟨hn2, h2⟩
  · rw [h2]; exact len1 st u1
  · rcases photo_add_spec st u1 b with hEq | ⟨hn1, hEq⟩
    · rw [h2]; simp [hEq]
    · exfalso
      rw [hEq] at hn2
      simp only [List.mem_cons] at hn2
      exact hn2 (Or.inl huu.symm)

/-- The Google Maps filter preserves the invariant. -/
theorem google_inv_preserved (st : ExtState) (u b : String) (m : Int) (h : Inv st) :
    Inv (GoogleMapsExtractor.addImageUrl st u b m).2 := by
  rcases google_add_spec st u b m with ⟨_, hEq⟩ | ⟨_, hEq⟩ | ⟨_, hn, hEq⟩ <;> rw [hEq]
  · exact h
  · exact h
  · exact inv_append st _ u h hn

/-- Feeding the same raw URL to the Google Maps filter twice leaves the state
of the second call unchanged. -/
theorem google_add_idem (st : ExtState) (u b : String) (m : Int) :
    (GoogleMapsExtractor.addImageUrl (GoogleMapsExtractor.addImageUrl st u b m).2 u b m).2 =
      (GoogleMapsExtractor.addImageUrl st u b m).2 := by
  rcases google_add_spec st u b m with ⟨_, hEq⟩ | ⟨_, hEq⟩ | ⟨_, hn, hEq⟩
  · simp [hEq]
  · simp [hEq]
  · rcases google_add_spec (GoogleMapsExtractor.addImageUrl st u b m).2 u b m with
      ⟨_, h2⟩ | ⟨_, h2⟩ | ⟨_, hn2, h2⟩
    · rw [h2]
    · rw [h2]
    · exact absurd (by rw [hEq]; exact List.mem_cons_self _ _) hn2

/-- Two raw URLs with the same normalization produce at most one new
descriptor in the Google Maps filter. -/
theorem google_pair_growth (st : ExtState) (u1 u2 b : String) (m : Int)
    (huu : GoogleMapsExtractor.normalize_image_url u1 b =
      GoogleMapsExtractor.normalize_image_url u2 b) :
    (GoogleMapsExtractor.addImageUrl
        (GoogleMapsExtractor.addImageUrl st u1 b m).2 u2 b m).2.results.length ≤
      st.results.length + 1 := by
  have len1 : ∀ s u, (GoogleMapsExtractor.addImageUrl s u b m).2.results.length ≤
      s.results.length + 1 := by
    intro s u
    rcases google_add_spec s u b m with ⟨_, hEq⟩ | ⟨_, hEq⟩ | ⟨_, _, hEq⟩ <;> simp [hEq]
  rcases google_add_spec (GoogleMapsExtractor.addImageUrl st u1 b m).2 u2 b m with
    ⟨_, h2⟩ | ⟨_, h2⟩ | ⟨_, hn2, h2⟩
  · rw [h2]; exact len1 st u1
  · rw [h2]; exact len1 st u1
  · rcases google_add_spec st u1 b m with ⟨_, hEq⟩ | ⟨_, hEq⟩ | ⟨_, hn1, hEq⟩
    · rw [h2]; simp [hEq]
    · rw [h2]; simp [hEq]
    · exfalso
      rw [hEq] at hn2
      simp only [List.mem_cons] at hn2
      exact hn2 (Or.inl huu.symm)

/-- C1: the claim that both normalizers are idempotent fails on the code.
The Google Maps normalizer's append branch adds `&s2048` (which the next
pass does not recognise as a size token, so it appends again), and in the
Tabelog/Hotpepper normalizer stripping a `w=` query parameter can expose a
`_s.` thumbnail suffix that only the second pass rewrites. Evaluating both
normalizers at these failing inputs exhibits the non-idempotence the spec
forbids. -/
theorem c1_normalize_idempotence_fails :
    GoogleMapsExtractor.normalize_image_url
        (GoogleMapsExtractor.normalize_image_url
          "https://lh3.googleusercontent.com/a/photo?x=1" "https://www.google.com/maps")
        "https://www.google.com/maps" ≠
      GoogleMapsExtractor.normalize_image_url
        "https://lh3.googleusercontent.com/a/photo?x=1" "https://www.google.com/maps" ∧
    GoogleMapsExtractor.normalize_image_url
        "https://lh3.googleusercontent.com/a/photo?x=1" "https://www.google.com/maps"
      = "https://lh3.googleusercontent.com/a/photo?x=1&s2048" ∧
    GoogleMapsExtractor.normalize_image_url
        "https://lh3.googleusercontent.com/a/photo?x=1&s2048" "https://www.google.com/maps"
      = "https://lh3.googleusercontent.com/a/photo?x=1&s2048&s2048" ∧
    PhotoExtractor.normalize_image_url
        (PhotoExtractor.normalize_image_url
          "http://cdn.example.com/photo_s?w=12.jpg" "https://tabelog.com/x/")
        "https://tabelog.com/x/" ≠
      PhotoExtractor.normalize_image_url
        "http://cdn.example.com/photo_s?w=12.jpg" "https://tabelog.com/x/" ∧
    PhotoExtractor.normalize_image_url
        "http://cdn.example.com/photo_s?w=12.jpg" "https://tabelog.com/x/"
      = "http://cdn.example.com/photo_s.jpg" ∧
    PhotoExtractor.normalize_image_url
        "http://cdn.example.com/photo_s.jpg" "https://tabelog.com/x/"
      = "http://cdn.example.com/photo_l.jpg" := by
  decide

/-- C2: deduplication is keyed on the normalized URL in both extractors.
The invariant "collected `url`s are pairwise distinct and all marked seen" is
preserved by every call; feeding the same raw URL twice changes nothing on
the second call; and two raw URLs that normalize to the same result append at
most one descriptor in total. -/
theorem c2_dedup_normalized_unique :
    ∀ (st : ExtState) (u u1 u2 b : String) (m : Int),
      (Inv st → Inv (PhotoExtractor.addImageUrl st u b)) ∧
      PhotoExtractor.addImageUrl (PhotoExtractor.addImageUrl st u b) u b =
        PhotoExtractor.addImageUrl st u b ∧
      (PhotoExtractor.normalize_image_url u1 b =
          PhotoExtractor.normalize_image_url u2 b →
        (PhotoExtractor.addImageUrl
            (PhotoExtractor.addImageUrl st u1 b) u2 b).results.length ≤
          st.results.length + 1) ∧
      (Inv st → Inv (GoogleMapsExtractor.addImageUrl st u b m).2) ∧
      (GoogleMapsExtractor.addImageUrl
          (GoogleMapsExtractor.addImageUrl st u b m).2 u b m).2 =
        (GoogleMapsExtractor.addImageUrl st u b m).2 ∧
      (GoogleMapsExtractor.normalize_image_url u1 b =
          GoogleMapsExtractor.normalize_image_url u2 b →
        (GoogleMapsExtractor.addImageUrl
            (GoogleMapsExtractor.addImageUrl st u1 b m).2 u2 b m).2.results.length ≤
          st.results.length + 1) :=
  fun st u u1 u2 b m =>
    ⟨photo_inv_preserved st u b, photo_add_idem st u b, photo_pair_growth st u1 u2 b,
      google_inv_preserved st u b m, google_add_idem st u b m,
      google_pair_growth st u1 u2 b m⟩

/-- Witness for C2 at concrete inputs: the empty state satisfies the
invariant, and all hypothesis-bearing conjuncts are discharged at a concrete
accepted URL. -/
theorem c2_dedup_normalized_unique_witness :
    Inv (PhotoExtractor.addImageUrl ⟨[], []⟩
      "https://tblg.k-img.com/restaurant/images/Rvw/sample_food_01.jpg"
      "https://tabelog.com/x/") ∧
    (PhotoExtractor.addImageUrl
        (PhotoExtractor.addImageUrl ⟨[], []⟩
          "https://tblg.k-img.com/restaurant/images/Rvw/sample_food_01.jpg"
          "https://tabelog.com/x/")
        "https://tblg.k-img.com/restaurant/images/Rvw/sample_food_01.jpg"
        "https://tabelog.com/x/").results.length ≤
      (⟨[], []⟩ : ExtState).results.length + 1 ∧
    Inv (GoogleMapsExtractor.addImageUrl ⟨[], []⟩
      "https://tblg.k-img.com/restaurant/images/Rvw/sample_food_01.jpg"
      "https://tabelog.com/x/" 30).2 ∧
    (GoogleMapsExtractor.addImageUrl
        (GoogleMapsExtractor.addImageUrl ⟨[], []⟩
          "https://tblg.k-img.com/restaurant/images/Rvw/sample_food_01.jpg"
          "https://tabelog.com/x/" 30).2
        "https://tblg.k-img.com/restaurant/images/Rvw/sample_food_01.jpg"
        "https://tabelog.com/x/" 30).2.results.length ≤
      (⟨[], []⟩ : ExtState).results.length + 1 :=
  ⟨(c2_dedup_normalized_unique ⟨[], []⟩
      "https://tblg.k-img.com/restaurant/images/Rvw/sample_food_01.jpg"
      "https://tblg.k-img.com/restaurant/images/Rvw/sample_food_01.jpg"
      "https://tblg.k-img.com/restaurant/images/Rvw/sample_food_01.jpg"
      "https://tabelog.com/x/" 30).1 (by decide),
    (c2_dedup_normalized_unique ⟨[], []⟩
      "https://tblg.k-img.com/restaurant/images/Rvw/sample_food_01.jpg"
      "https://tblg.k-img.com/restaurant/images/Rvw/sample_food_01.jpg"
      "https://tblg.k-img.com/restaurant/images/Rvw/sample_food_01.jpg"
      "https://tabelog.com/x/" 30).2.2.1 rfl,
    (c2_dedup_normalized_unique ⟨[], []⟩
      "https://tblg.k-img.com/restaurant/images/Rvw/sample_food_01.jpg"
      "https://tblg.k-img.com/restaurant/images/Rvw/sample_food_01.jpg"
      "https://tblg.k-img.com/restaurant/images/Rvw/sample_food_01.jpg"
      "https://tabelog.com/x/" 30).2.2.2.1 (by decide),
    (c2_dedup_normalized_unique ⟨[], []⟩
      "https://tblg.k-img.com/restaurant/images/Rvw/sample_food_01.jpg"
      "https://tblg.k-img.com/restaurant/images/Rvw/sample_food_01.jpg"
      "https://tblg.k-img.com/restaurant/images/Rvw/sample_food_01.jpg"
      "https://tabelog.com/x/" 30).2.2.2.2.2 rfl⟩

/-- C5 counterexample: the claimed uniform rejection list is false. The
Tabelog/Hotpepper filter does not check `1x1`, so a URL containing `1x1` is
accepted (one descriptor appended); the Google Maps filter does not check the
avatar dimension tokens, so a URL containing `150x150` is accepted. -/
theorem c5_rejection_rules_counterexample :
    strContains "http://example.com/banner_1x1_large.jpg" "1x1" = true ∧
    (PhotoExtractor.addImageUrl ⟨[], []⟩
        "http://example.com/banner_1x1_large.jpg"
        "http://example.com/").results.length = 1 ∧
    strContains "https://lh3.googleusercontent.com/p/photo_150x150.jpg" "150x150" = true ∧
    (GoogleMapsExtractor.addImageUrl ⟨[], []⟩
        "https://lh3.googleusercontent.com/p/photo_150x150.jpg"
        "https://www.google.com/maps" 30).2.results.length = 1 := by
  decide

/-- C5 amended: each filter rejects exactly its own list. The
Tabelog/Hotpepper filter rejects URLs shorter than 20 characters, the noise
words `pixel`, `tracking`, `blank`, `avatar`, `icon`, the tracking host
`imgvc.com`, the avatar dimension tokens `150x150`/`100x100` (but not `1x1`),
and URLs with none of `.jpg`/`.jpeg`/`.png`/`.webp`. The Google Maps filter
rejects URLs shorter than 20 characters, the noise words `pixel`, `tracking`,
`blank`, `avatar`, `icon`, `1x1` (but no tracking-host literal and no
dimension tokens), and URLs with none of
`.jpg`/`.jpeg`/`.png`/`googleusercontent.com` (`.webp` is not accepted). In
each rejected case nothing is appended and nothing is added to the seen
set. -/
theorem c5_rejection_rules_amended :
    ∀ (st : ExtState) (u b : String) (m : Int),
      ((u.length < 20 ∨
          strContains (pyLower u) "pixel" = true ∨
          strContains (pyLower u) "tracking" = true ∨
          strContains (pyLower u) "blank" = true ∨
          strContains (pyLower u) "avatar" = true ∨
          strContains (pyLower u) "icon" = true ∨
          strContains (pyLower u) "imgvc.com" = true ∨
          strContains u "150x150" = true ∨
          strContains u "100x100" = true ∨
          ([".jpg", ".jpeg", ".png", ".webp"].any
            (fun x => strContains (pyLower u) x)) = false) →
        PhotoExtractor.addImageUrl st u b = st) ∧
      ((u.length < 20 ∨
          (["pixel", "tracking", "blank", "avatar", "icon", "1x1"].any
            (fun x => strContains (pyLower u) x)) = true ∨
          ([".jpg", ".jpeg", ".png", "googleusercontent.com"].any
            (fun x => strContains (pyLower u) x)) = false) →
        (GoogleMapsExtractor.addImageUrl st u b m).2 = st) := by
  intro st u b m
  constructor
  · intro h
    simp only [PhotoExtractor.addImageUrl]
    repeat' split
    any_goals rfl
    exfalso
    rcases h with h | h | h | h | h | h | h | h | h | h
    all_goals simp_all
  · intro h
    simp only [GoogleMapsExtractor.addImageUrl]
    repeat' split
    any_goals rfl
    exfalso
    rcases h with h | h | h
    all_goals simp_all

/-- Witness for C5 at concrete rejected inputs: a 16-character URL is rejected
by the Tabelog/Hotpepper filter and a `tracking` URL by the Google Maps
filter, leaving the empty state unchanged. -/
theorem c5_rejection_rules_amended_witness :
    PhotoExtractor.addImageUrl ⟨[], []⟩ "http://a.b/x.jpg" "http://a.b/" = ⟨[], []⟩ ∧
    (GoogleMapsExtractor.addImageUrl ⟨[], []⟩
        "http://tracking.example.com/img_pixel_large.jpg"
        "http://example.com/" 30).2 = ⟨[], []⟩ :=
  ⟨(c5_rejection_rules_amended ⟨[], []⟩ "http://a.b/x.jpg" "http://a.b/" 30).1
      (Or.inl (by decide)),
    (c5_rejection_rules_amended ⟨[], []⟩
        "http://tracking.example.com/img_pixel_large.jpg" "http://example.com/" 30).2
      (Or.inr (Or.inl (by decide)))⟩

/-- C6 counterexample: the Tabelog/Hotpepper consider function enforces no
`max_count` bound at all — it takes no such parameter and appends every
accepted candidate — so with the contract bound instantiated to 1, feeding
two accepted candidates yields 2 results, while the Google Maps filter under
the same bound keeps exactly 1. -/
theorem c6_max_count_bound_counterexample :
    (PhotoExtractor.addImageUrl
        (PhotoExtractor.addImageUrl ⟨[], []⟩
          "http://example.com/food_photo_0001.jpg" "http://example.com/")
        "http://example.com/food_photo_0002.jpg" "http://example.com/").results.length = 2 ∧
    (GoogleMapsExtractor.addImageUrl
        (GoogleMapsExtractor.addImageUrl ⟨[], []⟩
          "http://example.com/food_photo_0001.jpg" "http://example.com/" 1).2
        "http://example.com/food_photo_0002.jpg" "http://example.com/" 1).2.results.length = 1 := by
  decide

/-- C6 amended: only the Google Maps consider function enforces the bound:
`results` never grows beyond `max_count` (when it starts within the bound),
the returned continue signal is `true` exactly when the result count is still
below `max_count` after the call, and once the bound is reached the call
returns `(false, unchanged state)`. The Tabelog/Hotpepper variant takes no
`max_count` and returns no signal. -/
theorem c6_max_count_bound_amended :
    ∀ (st : ExtState) (u b : String) (m : Int),
      (((st.results.length : Int) ≤ m) →
        (((GoogleMapsExtractor.addImageUrl st u b m).2.results.length : Int) ≤ m)) ∧
      (((GoogleMapsExtractor.addImageUrl st u b m).1 = true) ↔
        (((GoogleMapsExtractor.addImageUrl st u b m).2.results.length : Int) < m)) ∧
      ((m ≤ (st.results.length : Int)) →
        GoogleMapsExtractor.addImageUrl st u b m = (false, st)) := by
  intro st u b m
  rcases google_add_spec st u b m with ⟨hm, hEq⟩ | ⟨hm, hEq⟩ | ⟨hm, hn, hEq⟩ <;>
    rw [hEq] <;> refine ⟨?_, ?_, ?_⟩
  · intro h; exact h
  · simp only [Prod.fst, Prod.snd]
    constructor
    · intro h; exact absurd h Bool.false_ne_true
    · intro h; omega
  · intro _; rfl
  · intro h; exact h
  · constructor
    · intro _; exact hm
    · intro _; rfl
  · intro h; exact absurd h (by omega)
  · intro _
    simp only [List.length_append, List.length_singleton]
    push_cast
    omega
  · simp only [decide_eq_true_iff]
  · intro h; exact absurd h (by omega)

/-- Witness for C6 at concrete inputs: starting from the empty state with
bound 30, the bound is kept, and at bound 0 the call returns
`(false, unchanged)`. -/
theorem c6_max_count_bound_amended_witness :
    (((GoogleMapsExtractor.addImageUrl ⟨[], []⟩
        "http://example.com/food_photo_0001.jpg"
        "http://example.com/" 30).2.results.length : Int) ≤ 30) ∧
    GoogleMapsExtractor.addImageUrl ⟨[], []⟩
        "http://example.com/food_photo_0001.jpg"
        "http://example.com/" 0 = (false, ⟨[], []⟩) :=
  ⟨(c6_max_count_bound_amended ⟨[], []⟩ "http://example.com/food_photo_0001.jpg"
      "http://example.com/" 30).1 (by decide),
    (c6_max_count_bound_amended ⟨[], []⟩ "http://example.com/food_photo_0001.jpg"
      "http://example.com/" 0).2.2 (by decide)⟩

/-- State of the Tabelog/Hotpepper scroll loop (photo_extractor.py lines
145-159) before iteration `n`: the pair `(last_height, scroll_attempts)`,
starting from `(0, 0)`. `hs i` is the `document.body.scrollHeight` value
observed during iteration `i`; on an unchanged height `scroll_attempts` is
incremented, otherwise it is reset to 0, and `last_height` is always
updated. -/
def photoScrollState (hs : Nat → Nat) : Nat → Nat × Nat
  | 0 => (0, 0)
  | n + 1 =>
    let s := photoScrollState hs n
    let nh := hs n
    if nh = s.1 then (nh, s.2 + 1) else (nh, 0)

/-- Whether the scroll loop has exited within `n` iterations: some iteration
`i < n` either raised `scroll_attempts` to the `break` threshold 3, or found
the `while scroll_attempts < max_scrolls` guard (with `max_scrolls = 50`)
already false before running. -/
def photoScrollStops (hs : Nat → Nat) (n : Nat) : Bool :=
  (List.range n).any (fun i =>
    decide (3 ≤ (photoScrollState hs (i + 1)).2) ||
    decide (50 ≤ (photoScrollState hs i).2))

/-- C7: the claim that the scroll loop always terminates within the
≈30-50-iteration ceiling fails for the Tabelog/Hotpepper loop: on a page
whose scroll height grows at every pass (heights 1, 2, 3, ...),
`scroll_attempts` is reset to 0 on every iteration, so neither the
3-consecutive-no-change break nor the `max_scrolls = 50` guard ever fires —
the loop has not stopped after `n` iterations for any `n`. -/
theorem c7_photo_scroll_loop_never_stops :
    ∀ n : Nat, (photoScrollState (fun i => i + 1) n).2 = 0 ∧
      photoScrollStops (fun i => i + 1) n = false := by
  have hstate : ∀ n, photoScrollState (fun i => i + 1) n = (n, 0) := by
    intro n
    induction n with
    | zero => rfl
    | succ k ih =>
      simp only [photoScrollState, ih]
      rw [if_neg (by omega)]
  intro n
  refine ⟨by rw [hstate], ?_⟩
  simp [photoScrollStops, hstate]

namespace GoogleMapsExtractor

/-- The cap constant `MAX_IMAGES_DEFAULT` (google_maps_extractor.py line
14). -/
def MAX_IMAGES_DEFAULT : Int := 30

/-- `extract_photos_from_google_maps` (google_maps_extractor.py lines 83-283),
modelled on its result-relevant skeleton: the browser interaction is
abstracted into `candidates`, the stream of image URLs observed across all
scroll iterations in document order; the bound is clamped by lines 94-96,
every candidate passes through `_add_image_url` with that bound, and the
final list is truncated by `return results[:max_images]` (line 283). -/
def extract_photos_from_google_maps (max_images : Int) (candidates : List String)
    (base_url : String) : List PhotoDescriptor :=
  let m : Int := if max_images ≤ 0 then MAX_IMAGES_DEFAULT else max_images
  let m : Int := min m 30
  let final : ExtState :=
    candidates.foldl (fun st u => (addImageUrl st u base_url m).2) ⟨[], []⟩
  final.results.take m.toNat

end GoogleMapsExtractor

/-- C9: the Google Maps extractor caps its output at a hard maximum of 30:
for every candidate stream, a positive requested count `n` yields at most
`min n 30` descriptors, and a non-positive `n` behaves exactly like the
default of 30. -/
theorem c9_google_extractor_caps_at_30 :
    ∀ (n : Int) (cs : List String) (b : String),
      (0 < n →
        ((GoogleMapsExtractor.extract_photos_from_google_maps n cs b).length : Int) ≤
          min n 30) ∧
      (n ≤ 0 →
        GoogleMapsExtractor.extract_photos_from_google_maps n cs b =
          GoogleMapsExtractor.extract_photos_from_google_maps 30 cs b) := by
  intro n cs b
  constructor
  · intro hn
    simp only [GoogleMapsExtractor.extract_photos_from_google_maps, if_neg (by omega : ¬ n ≤ 0)]
    have htake := List.length_take_le (min n 30).toNat
      (cs.foldl (fun st u => (GoogleMapsExtractor.addImageUrl st u b (min n 30)).2)
        (⟨[], []⟩ : ExtState)).results
    omega
  · intro hn
    simp only [GoogleMapsExtractor.extract_photos_from_google_maps, if_pos hn,
      GoogleMapsExtractor.MAX_IMAGES_DEFAULT, if_neg (by omega : ¬ (30 : Int) ≤ 0)]

/-- Witness for C9 at a concrete request of 5 images over a two-candidate
stream. -/
theorem c9_google_extractor_caps_at_30_witness :
    ((GoogleMapsExtractor.extract_photos_from_google_maps 5
        ["http://example.com/food_photo_0001.jpg",
         "http://example.com/food_photo_0002.jpg"]
        "http://example.com/").length : Int) ≤ min 5 30 :=
  (c9_google_extractor_caps_at_30 5
      ["http://example.com/food_photo_0001.jpg",
       "http://example.com/food_photo_0002.jpg"]
      "http://example.com/").1 (by decide)

namespace ImageProcessor

/-!
Embedding of `image_processor.py`. The transformation pipeline is modelled at
two levels: `ImgDim` carries the dimension behaviour of every Pillow
operation (pixel values of LANCZOS resampling and of the tone-correction
enhancers are floating-point computations none of the claims depend on), and
`Img` (further below) carries pixel contents for `paste_logo`, whose
compositing is integer arithmetic.

Python float arithmetic is modelled by exact rationals and `int(x)` by
truncation toward zero; the claims proved below do not depend on the
sub-ulp differences between binary floats and these rationals.
-/

/-- Python `int(x)` on a rational: truncation toward zero. -/
def pyTrunc (q : ℚ) : Int := Int.tdiv q.num q.den

/-- `SIZE_PRESETS` (image_processor.py lines 11-14): the closed enumeration
of output canvas sizes. -/
def SIZE_PRESETS : List (Nat × Nat) := [(1080, 1350), (1024, 682)]

/-- `WEBP_TARGET_BYTES` (line 17). -/
def WEBP_TARGET_BYTES : Nat := 100000

/-- Dimensions of a Pillow bitmap. -/
structure ImgDim where
  w : Nat
  h : Nat
deriving DecidableEq

/-- `Image.resize((target_w, target_h), LANCZOS)`: the output bitmap has
exactly the requested dimensions, whatever the input's. -/
def resizeDim (img : ImgDim) (target_w target_h : Nat) : ImgDim :=
  ⟨target_w, target_h⟩

/-- `center_crop_resize` (image_processor.py lines 79-95): compare the
source and target aspect ratios; crop `(left, 0, left + new_w, src_h)` or
`(0, top, src_w, top + new_h)` accordingly (a Pillow crop box `(l, t, r, b)`
yields an `(r - l, b - t)` bitmap), then resize to the target. -/
def center_crop_resize (img : ImgDim) (target_w target_h : Nat) : ImgDim :=
  let target_ratio : ℚ := (target_w : ℚ) / (target_h : ℚ)
  let src_ratio : ℚ := (img.w : ℚ) / (img.h : ℚ)
  let cropped : ImgDim :=
    if src_ratio > target_ratio then
      let new_w := (pyTrunc ((img.h : ℚ) * target_ratio)).toNat
      ⟨new_w, img.h⟩
    else if src_ratio < target_ratio then
      let new_h := (pyTrunc ((img.w : ℚ) / target_ratio)).toNat
      ⟨img.w, new_h⟩
    else img
  resizeDim cropped target_w target_h

/-- `resize_logo_by_width` (lines 112-120): scale the logo to
`int(base_width * width_percent)` wide, preserving its aspect ratio. -/
def resize_logo_by_width (logo : ImgDim) (base_width : Nat) (width_percent : ℚ) :
    ImgDim :=
  let target_width := (pyTrunc ((base_width : ℚ) * width_percent)).toNat
  let ratio : ℚ := (target_width : ℚ) / (logo.w : ℚ)
  let new_h := (pyTrunc ((logo.h : ℚ) * ratio)).toNat
  ⟨target_width, new_h⟩

/-- `apply_logo_opacity` (lines 123-131): a pointwise scaling of the alpha
channel; the bitmap's dimensions are unchanged. -/
def apply_logo_opacity (logo : ImgDim) (opacity : ℚ) : ImgDim := logo

/-- `add_logo_outline` (lines 98-109): `MaxFilter` dilation of the alpha
channel, `subtract_modulo`, `putalpha` and `alpha_composite` all operate on
same-sized layers; the bitmap's dimensions are unchanged. -/
def add_logo_outline (logo : ImgDim) (stroke_width : Nat) : ImgDim := logo

/-- Dimension behaviour of `paste_logo` (lines 134-177): it pastes onto a
copy of `base_img` in place and returns that copy, so the result has the
base's dimensions. The placement arithmetic is `paste_logo_xy` below and the
heap behaviour is `paste_logo` further below. -/
def paste_logo_dims (base_img logo : ImgDim) : ImgDim := base_img

/-- `enhance_for_mobile` (lines 43-48) with `reduce_highlights` (25-40):
pointwise brightness, contrast and highlight-roll-off channel maps; the
bitmap's dimensions are unchanged. -/
def enhance_for_mobile (img : ImgDim) : ImgDim := img

/-- `process_image` (image_processor.py lines 180-226), dimension behaviour:
decode, center-crop-resize to the preset, optionally resize the logo, apply
opacity, outline twice and paste it, and apply the mobile tone correction
when the preset is portrait (`target_h > target_w`). -/
def process_image (img : ImgDim) (size_preset : Nat × Nat) (logo : Option ImgDim)
    (logo_width_percent : ℚ) (logo_position : String)
    (logo_custom_x logo_custom_y : Option ℚ) (logo_offset_x logo_offset_y : Int)
    (logo_opacity : ℚ) : ImgDim :=
  let target_w := size_preset.1
  let target_h := size_preset.2
  let result := center_crop_resize img target_w target_h
  let result :=
    match logo with
    | some lg =>
      let logo_resized := resize_logo_by_width lg target_w logo_width_percent
      let logo_resized := apply_logo_opacity logo_resized logo_opacity
      let logo_resized := add_logo_outline logo_resized 1
      let logo_resized := add_logo_outline logo_resized 2
      paste_logo_dims result logo_resized
    | none => result
  if target_h > target_w then enhance_for_mobile result else result

/-- The placement arithmetic of `paste_logo` (lines 151-174): margin
`int(min(bw, bh) * margin_percent)`; the custom fractional position
`int((bw - lw) * custom_x_percent / 100)` when `position == "custom"` and
both percentages are given, otherwise the four corner anchors; then the pixel
offset and the final clamp `max(0, min(bw - lw, x + offset_x))` (and
likewise for `y`). -/
def paste_logo_xy (bw bh lw lh : Nat) (position : String) (margin_percent : ℚ)
    (custom_x_percent custom_y_percent : Option ℚ) (offset_x offset_y : Int) :
    Int × Int :=
  let margin : Int := pyTrunc ((min bw bh : ℚ) * margin_percent)
  let xy : Int × Int :=
    if position = "custom" ∧ custom_x_percent.isSome ∧ custom_y_percent.isSome then
      (pyTrunc (((bw : ℚ) - (lw : ℚ)) * custom_x_percent.getD 0 / 100),
        pyTrunc (((bh : ℚ) - (lh : ℚ)) * custom_y_percent.getD 0 / 100))
    else if position = "bottom_right" then
      ((bw : Int) - lw - margin, (bh : Int) - lh - margin)
    else if position = "bottom_left" then (margin, (bh : Int) - lh - margin)
    else if position = "top_right" then ((bw : Int) - lw - margin, margin)
    else (margin, margin)
  (max 0 (min ((bw : Int) - lw) (xy.1 + offset_x)),
    max 0 (min ((bh : Int) - lh) (xy.2 + offset_y)))

/-- The quality update of `save_as_webp` (image_processor.py lines 63-66):
step down by 8 floored at 20 when the output is over target, otherwise step
up by 5 capped at 95. -/
def webpQualityStep (target size q : Nat) : Nat :=
  if size > target then max 20 (q - 8) else min 95 (q + 5)

/-- The acceptance band `target_bytes * 0.7 <= size <= target_bytes * 1.3`
(line 61), with the float bounds written as exact rationals
(`7 * target ≤ 10 * size ≤ 13 * target`). -/
def webpBand (target size : Nat) : Bool :=
  decide (7 * target ≤ 10 * size) && decide (10 * size ≤ 13 * target)

/-- The `for _ in range(15)` loop of `save_as_webp` (lines 56-67). `enc q` is
the byte size of `img.save(buf, "WEBP", quality=q)` for the fixed input
bitmap — an arbitrary function of the quality, which is how the theorems
below quantify over input bitmaps. With `fuel` iterations remaining: encode
once; return immediately inside the band; otherwise, if iterations remain,
adjust the quality and continue, else return the last attempt. The result is
the pair (size of the returned payload, number of encode calls made). -/
def webpLoop (enc : Nat → Nat) (target : Nat) : Nat → Nat → Nat × Nat
  | q, 0 => (enc q, 1)
  | q, fuel + 1 =>
    let size := enc q
    if webpBand target size then (size, 1)
    else if fuel = 0 then (size, 1)
    else
      let r := webpLoop enc target (webpQualityStep target size q) fuel
      (r.1, r.2 + 1)

/-- `save_as_webp` (lines 51-67): run the loop from `quality = 82` with 15
iterations; the returned payload's size. -/
def save_as_webp (enc : Nat → Nat) (target : Nat) : Nat :=
  (webpLoop enc target 82 15).1

/-- The number of encode calls `save_as_webp` performs. -/
def save_as_webp_iterations (enc : Nat → Nat) (target : Nat) : Nat :=
  (webpLoop enc target 82 15).2

/-- The sequence of quality values the loop visits, starting from `q`. -/
def webpQSeqFrom (enc : Nat → Nat) (target q : Nat) : Nat → Nat
  | 0 => q
  | n + 1 =>
    webpQualityStep target (enc (webpQSeqFrom enc target q n))
      (webpQSeqFrom enc target q n)

/-- The quality sequence of `save_as_webp`, starting from 82. -/
def webpQSeq (enc : Nat → Nat) (target : Nat) : Nat → Nat :=
  webpQSeqFrom enc target 82

theorem webpQSeqFrom_shift (enc : Nat → Nat) (target q n : Nat) :
    webpQSeqFrom enc target q (n + 1) =
      webpQSeqFrom enc target (webpQualityStep target (enc q) q) n := by
  induction n with
  | zero => rfl
  | succ k ih =>
    have h1 : webpQSeqFrom enc target q (k + 1 + 1) =
        webpQualityStep target (enc (webpQSeqFrom enc target q (k + 1)))
          (webpQSeqFrom enc target q (k + 1)) := rfl
    have h2 : webpQSeqFrom enc target (webpQualityStep target (enc q) q) (k + 1) =
        webpQualityStep target
          (enc (webpQSeqFrom enc target (webpQualityStep target (enc q) q) k))
          (webpQSeqFrom enc target (webpQualityStep target (enc q) q) k) := rfl
    rw [h1, h2, ih]

/-- If the band is first hit at index `j < fuel` of the quality sequence, the
loop returns that attempt's size after exactly `j + 1` encode calls. -/
theorem webpLoop_first_accept (enc : Nat → Nat) (target : Nat) :
    ∀ (fuel q j : Nat), j < fuel →
      webpBand target (enc (webpQSeqFrom enc target q j)) = true →
      (∀ k, k < j → webpBand target (enc (webpQSeqFrom enc target q k)) = false) →
      webpLoop enc target q fuel = (enc (webpQSeqFrom enc target q j), j + 1) := by
  intro fuel
  induction fuel with
  | zero => intro q j hj _ _; exact absurd hj (Nat.not_lt_zero j)
  | succ f ih =>
    intro q j hj hband hk
    by_cases h0 : webpBand target (enc q) = true
    · have hj0 : j = 0 := by
        by_contra hne
        have h00 : webpBand target (enc q) = false := hk 0 (by omega)
        rw [h00] at h0
        exact Bool.false_ne_true h0
      subst hj0
      show webpLoop enc target q (f + 1) = (enc (webpQSeqFrom enc target q 0), 0 + 1)
      simp [webpLoop, webpQSeqFrom, h0]
    · have hj1 : j ≠ 0 := by
        intro hEq
        subst hEq
        exact h0 hband
      obtain ⟨j', rfl⟩ : ∃ j', j = j' + 1 := ⟨j - 1, by omega⟩
      have hf : f ≠ 0 := by omega
      have hstep : webpLoop enc target q (f + 1) =
          ((webpLoop enc target (webpQualityStep target (enc q) q) f).1,
            (webpLoop enc target (webpQualityStep target (enc q) q) f).2 + 1) := by
        simp [webpLoop, h0, hf]
      rw [hstep,
        ih (webpQualityStep target (enc q) q) j' (by omega)
          (by rw [← webpQSeqFrom_shift]; exact hband)
          (fun k hk' => by
            rw [← webpQSeqFrom_shift]; exact hk (k + 1) (by omega)),
        webpQSeqFrom_shift]

/-- If no index below `fuel` hits the band, the loop returns the last
attempt's size after exactly `fuel` encode calls. -/
theorem webpLoop_fallback (enc : Nat → Nat) (target : Nat) :
    ∀ (fuel q : Nat), 1 ≤ fuel →
      (∀ k, k < fuel → webpBand target (enc (webpQSeqFrom enc target q k)) = false) →
      webpLoop enc target q fuel = (enc (webpQSeqFrom enc target q (fuel - 1)), fuel) := by
  intro fuel
  induction fuel with
  | zero => intro q h _; exact absurd h (by omega)
  | succ f ih =>
    intro q _ hk
    have h0 : webpBand target (enc q) = false := hk 0 (by omega)
    by_cases hf0 : f = 0
    · subst hf0
      simp [webpLoop, webpQSeqFrom, h0]
    · obtain ⟨f', rfl⟩ : ∃ f', f = f' + 1 := ⟨f - 1, by omega⟩
      have hstep : webpLoop enc target q (f' + 1 + 1) =
          ((webpLoop enc target (webpQualityStep target (enc q) q) (f' + 1)).1,
            (webpLoop enc target (webpQualityStep target (enc q) q) (f' + 1)).2 + 1) := by
        simp [webpLoop, h0]
      rw [hstep,
        ih (webpQualityStep target (enc q) q) (by omega)
          (fun k hk' => by
            rw [← webpQSeqFrom_shift]; exact hk (k + 1) (by omega))]
      have hshift := webpQSeqFrom_shift enc target q f'
      simp only [Nat.add_sub_cancel] at *
      rw [hshift]

/-- The loop never makes more than `max 1 fuel` encode calls. -/
theorem webpLoop_iters_le (enc : Nat → Nat) (target : Nat) :
    ∀ (fuel q : Nat), (webpLoop enc target q fuel).2 ≤ max 1 fuel := by
  intro fuel
  induction fuel with
  | zero => intro q; simp [webpLoop]
  | succ f ih =>
    intro q
    by_cases h0 : webpBand target (enc q) = true
    · have hv : webpLoop enc target q (f + 1) = (enc q, 1) := by
        simp [webpLoop, h0]
      rw [hv]
      simp
    · by_cases hf : f = 0
      · subst hf
        have hv : webpLoop enc target q (0 + 1) = (enc q, 1) := by
          simp [webpLoop, h0]
        rw [hv]
        simp
      · have hrec := ih (webpQualityStep target (enc q) q)
        have hstep : webpLoop enc target q (f + 1) =
            ((webpLoop enc target (webpQualityStep target (enc q) q) f).1,
              (webpLoop enc target (webpQualityStep target (enc q) q) f).2 + 1) := by
          simp [webpLoop, h0, hf]
        rw [hstep]
        omega

/-- The quality sequence stays within the floor 20 and the cap 95. -/
theorem webpQSeq_bounds (enc : Nat → Nat) (target : Nat) :
    ∀ j, 20 ≤ webpQSeq enc target j ∧ webpQSeq enc target j ≤ 95 := by
  intro j
  induction j with
  | zero => exact ⟨by norm_num [webpQSeq, webpQSeqFrom], by norm_num [webpQSeq, webpQSeqFrom]⟩
  | succ k ih =>
    obtain ⟨h1, h2⟩ := ih
    simp only [webpQSeq, webpQSeqFrom, webpQualityStep] at *
    split <;> omega

end ImageProcessor

/-- C4: the size-targeted encoder makes at most 15 encode calls; an attempt
whose size lies within the ±30% band of `target_bytes` is accepted
immediately (the returned size is the first in-band attempt); when no attempt
lands in the band, the 15th (last) attempt's bytes are returned rather than
an error; the quality steps down by 8 floored at 20 when over target and up
by 5 capped at 95 when under, staying in [20, 95] throughout. -/
theorem c4_size_targeted_encoder :
    ∀ (enc : Nat → Nat) (target : Nat), 0 < target →
      ImageProcessor.save_as_webp_iterations enc target ≤ 15 ∧
      (∀ s, ImageProcessor.webpBand target s = true ↔
        (7 * target ≤ 10 * s ∧ 10 * s ≤ 13 * target)) ∧
      (∀ j, j < 15 →
        ImageProcessor.webpBand target (enc (ImageProcessor.webpQSeq enc target j)) = true →
        (∀ k, k < j →
          ImageProcessor.webpBand target (enc (ImageProcessor.webpQSeq enc target k)) = false) →
        ImageProcessor.save_as_webp enc target = enc (ImageProcessor.webpQSeq enc target j)) ∧
      ((∀ j, j < 15 →
          ImageProcessor.webpBand target (enc (ImageProcessor.webpQSeq enc target j)) = false) →
        ImageProcessor.save_as_webp enc target = enc (ImageProcessor.webpQSeq enc target 14)) ∧
      (∀ j, ImageProcessor.webpQSeq enc target (j + 1) =
        if enc (ImageProcessor.webpQSeq enc target j) > target
        then max 20 (ImageProcessor.webpQSeq enc target j - 8)
        else min 95 (ImageProcessor.webpQSeq enc target j + 5)) ∧
      (∀ j, 20 ≤ ImageProcessor.webpQSeq enc target j ∧
        ImageProcessor.webpQSeq enc target j ≤ 95) := by
  intro enc target _
  refine ⟨?_, ?_, ?_, ?_, ?_, ImageProcessor.webpQSeq_bounds enc target⟩
  · have := ImageProcessor.webpLoop_iters_le enc target 15 82
    simpa [ImageProcessor.save_as_webp_iterations] using this
  · intro s
    simp [ImageProcessor.webpBand]
  · intro j hj hband hk
    have := ImageProcessor.webpLoop_first_accept enc target 15 82 j hj hband hk
    simp only [ImageProcessor.save_as_webp, this]
    rfl
  · intro hall
    have := ImageProcessor.webpLoop_fallback enc target 15 82 (by omega)
      (fun k hk => hall k hk)
    simp only [ImageProcessor.save_as_webp, this]
    rfl
  · intro j
    rfl

/-- Witness for C4: for an encoder producing 1000 bytes per quality point and
a 100000-byte target, the very first attempt (quality 82, 82000 bytes) is in
band and is returned; the iteration budget holds. -/
theorem c4_size_targeted_encoder_witness :
    ImageProcessor.save_as_webp (fun q => 1000 * q) 100000 =
      (fun q => 1000 * q) (ImageProcessor.webpQSeq (fun q => 1000 * q) 100000 0) ∧
    ImageProcessor.save_as_webp_iterations (fun q => 1000 * q) 100000 ≤ 15 :=
  ⟨(c4_size_targeted_encoder (fun q => 1000 * q) 100000 (by decide)).2.2.1 0
      (by decide) (by decide) (fun k hk => absurd hk (by omega)),
    (c4_size_targeted_encoder (fun q => 1000 * q) 100000 (by decide)).1⟩

/-- C3: aspect-fill invariant — for every source bitmap with positive
dimensions and every preset, `process_image` (with or without a logo; the
mobile tone correction applies exactly when the preset is portrait) returns a
bitmap whose dimensions equal the preset exactly, and already
`center_crop_resize` does. -/
theorem c3_aspect_fill :
    ∀ (img : ImageProcessor.ImgDim) (preset : Nat × Nat)
      (logo : Option ImageProcessor.ImgDim) (wp : ℚ) (pos : String)
      (cx cy : Option ℚ) (ox oy : Int) (op : ℚ),
      0 < img.w → 0 < img.h → 0 < preset.1 → 0 < preset.2 →
      (∀ lg, logo = some lg → 0 < lg.w) →
      ImageProcessor.process_image img preset logo wp pos cx cy ox oy op =
        ⟨preset.1, preset.2⟩ ∧
      ImageProcessor.center_crop_resize img preset.1 preset.2 =
        ⟨preset.1, preset.2⟩ := by
  intro img preset logo wp pos cx cy ox oy op hw hh htw hth hlg
  constructor
  · cases logo <;>
      · simp only [ImageProcessor.process_image]
        split <;> rfl
  · rfl

/-- Witness for C3: a 4000x3000 source, the portrait preset and a logo. -/
theorem c3_aspect_fill_witness :
    ImageProcessor.process_image ⟨4000, 3000⟩ (1080, 1350)
        (some ⟨400, 200⟩) (15 / 100) "bottom_right" none none 0 0 1 =
      ⟨1080, 1350⟩ :=
  (c3_aspect_fill ⟨4000, 3000⟩ (1080, 1350) (some ⟨400, 200⟩) (15 / 100)
    "bottom_right" none none 0 0 1 (by decide) (by decide) (by decide) (by decide)
    (fun lg h => by cases h; decide)).1

/-- C8: logo containment — for every placement mode, margin, custom
percentages and pixel offset, if the logo fits the canvas
(`lw ≤ bw`, `lh ≤ bh`) then the clamped position keeps the logo's bounding
box inside the canvas. -/
theorem c8_logo_containment :
    ∀ (bw bh lw lh : Nat) (pos : String) (mp : ℚ) (cx cy : Option ℚ)
      (ox oy : Int),
      lw ≤ bw → lh ≤ bh →
      0 ≤ (ImageProcessor.paste_logo_xy bw bh lw lh pos mp cx cy ox oy).1 ∧
      (ImageProcessor.paste_logo_xy bw bh lw lh pos mp cx cy ox oy).1 + lw ≤ bw ∧
      0 ≤ (ImageProcessor.paste_logo_xy bw bh lw lh pos mp cx cy ox oy).2 ∧
      (ImageProcessor.paste_logo_xy bw bh lw lh pos mp cx cy ox oy).2 + lh ≤ bh := by
  intro bw bh lw lh pos mp cx cy ox oy hw hh
  simp only [ImageProcessor.paste_logo_xy]
  split <;> refine ⟨?_, ?_, ?_, ?_⟩ <;> omega

/-- Witness for C8: the portrait canvas, a 162x60 logo, the bottom-right
corner, the default 3% margin and a large negative offset. -/
theorem c8_logo_containment_witness :
    0 ≤ (ImageProcessor.paste_logo_xy 1080 1350 162 60 "bottom_right" (3 / 100)
        none none (-500) 99999).1 ∧
    (ImageProcessor.paste_logo_xy 1080 1350 162 60 "bottom_right" (3 / 100)
        none none (-500) 99999).1 + 162 ≤ 1080 ∧
    0 ≤ (ImageProcessor.paste_logo_xy 1080 1350 162 60 "bottom_right" (3 / 100)
        none none (-500) 99999).2 ∧
    (ImageProcessor.paste_logo_xy 1080 1350 162 60 "bottom_right" (3 / 100)
        none none (-500) 99999).2 + 60 ≤ 1350 :=
  c8_logo_containment 1080 1350 162 60 "bottom_right" (3 / 100) none none
    (-500) 99999 (by decide) (by decide)

namespace ImageProcessor

/-- An RGBA pixel. -/
structure Pix where
  r : Nat
  g : Nat
  b : Nat
  a : Nat
deriving DecidableEq

/-- A Pillow bitmap with pixel contents, for the compositing model of
`paste_logo`. -/
structure Img where
  w : Nat
  h : Nat
  px : Nat → Nat → Pix

/-- Pillow `paste` with an RGBA mask blends the colour channels by the mask's
alpha inside the pasted box; Pillow's exact per-channel rounding is modelled
by truncating division, on which no claim depends. -/
def alphaBlend (bp lp : Pix) : Pix :=
  ⟨(bp.r * (255 - lp.a) + lp.r * lp.a) / 255,
    (bp.g * (255 - lp.a) + lp.g * lp.a) / 255,
    (bp.b * (255 - lp.a) + lp.b * lp.a) / 255,
    bp.a⟩

/-- `base.paste(logo, (x, y), logo)`: the value the mutated receiver holds
afterwards — blended inside the box anchored at `(x, y)`, unchanged
outside; the bitmap's size is unchanged. -/
def pasteInto (base logo : Img) (x y : Int) : Img :=
  { w := base.w, h := base.h,
    px := fun i j =>
      let li := (i : Int) - x
      let lj := (j : Int) - y
      if 0 ≤ li ∧ li < (logo.w : Int) ∧ 0 ≤ lj ∧ lj < (logo.h : Int) then
        alphaBlend (base.px i j) (logo.px li.toNat lj.toNat)
      else base.px i j }

/-- `Image.convert("RGBA")` returns a new image; the pixel model here already
carries RGBA, so the conversion is the identity on the value. -/
def convertRGBA (img : Img) : Img := img

/-- The object store of the Python runtime: images are heap objects addressed
by identity. `copy()` allocates a fresh object; in-place operations such as
`paste` update the object at the receiver's address. -/
structure Heap where
  mem : Nat → Img
  next : Nat

/-- In-place update of the object at address `i`. -/
def heapSet (hp : Heap) (i : Nat) (v : Img) : Heap :=
  ⟨fun j => if j = i then v else hp.mem j, hp.next⟩

/-- `copy()`: allocate a fresh object holding `v`, returning the new heap and
the fresh address. -/
def heapAlloc (hp : Heap) (v : Img) : Heap × Nat :=
  (⟨fun j => if j = hp.next then v else hp.mem j, hp.next + 1⟩, hp.next)

/-- `paste_logo` (image_processor.py lines 134-177) at the heap level:
`base = base_img.copy()` allocates a fresh object, `logo = logo.convert("RGBA")`
rebinds the local name to a new value, the placement is computed by
`paste_logo_xy` from the copy's and logo's sizes, and
`base.paste(logo, (x, y), logo)` mutates only the copy, which is returned. -/
def paste_logo (hp : Heap) (base_img logo : Nat) (position : String)
    (margin_percent : ℚ) (custom_x_percent custom_y_percent : Option ℚ)
    (offset_x offset_y : Int) : Heap × Nat :=
  let baseVal := hp.mem base_img
  let alloc := heapAlloc hp baseVal
  let hp1 := alloc.1
  let copyId := alloc.2
  let logoVal := convertRGBA (hp1.mem logo)
  let xy := paste_logo_xy baseVal.w baseVal.h logoVal.w logoVal.h position
    margin_percent custom_x_percent custom_y_percent offset_x offset_y
  let hp2 := heapSet hp1 copyId (pasteInto (hp1.mem copyId) logoVal xy.1 xy.2)
  (hp2, copyId)

end ImageProcessor

/-- C10: `paste_logo` does not mutate its inputs — for every heap and valid
base and logo addresses, after the call the objects at both input addresses
are unchanged, and the returned image is the freshly allocated copy, distinct
from the base. -/
theorem c10_paste_logo_no_mutation :
    ∀ (hp : ImageProcessor.Heap) (baseId logoId : Nat) (pos : String) (mp : ℚ)
      (cx cy : Option ℚ) (ox oy : Int),
      baseId < hp.next → logoId < hp.next →
      (ImageProcessor.paste_logo hp baseId logoId pos mp cx cy ox oy).1.mem baseId =
        hp.mem baseId ∧
      (ImageProcessor.paste_logo hp baseId logoId pos mp cx cy ox oy).1.mem logoId =
        hp.mem logoId ∧
      (ImageProcessor.paste_logo hp baseId logoId pos mp cx cy ox oy).2 = hp.next ∧
      (ImageProcessor.paste_logo hp baseId logoId pos mp cx cy ox oy).2 ≠ baseId ∧
      (ImageProcessor.paste_logo hp baseId logoId pos mp cx cy ox oy).2 ≠ logoId := by
  intro hp baseId logoId pos mp cx cy ox oy hb hl
  have hbne : baseId ≠ hp.next := by omega
  have hlne : logoId ≠ hp.next := by omega
  have hid : (ImageProcessor.paste_logo hp baseId logoId pos mp cx cy ox oy).2 =
      hp.next := rfl
  refine ⟨?_, ?_, hid, by rw [hid]; omega, by rw [hid]; omega⟩
  · simp only [ImageProcessor.paste_logo, ImageProcessor.heapSet,
      ImageProcessor.heapAlloc]
    simp [hbne]
  · simp only [ImageProcessor.paste_logo, ImageProcessor.heapSet,
      ImageProcessor.heapAlloc]
    simp [hlne]

/-- Witness for C10: a concrete two-object heap (base at address 0, logo at
address 1). -/
theorem c10_paste_logo_no_mutation_witness :
    (ImageProcessor.paste_logo
        ⟨fun _ => ⟨8, 8, fun _ _ => ⟨0, 0, 0, 255⟩⟩, 2⟩ 0 1 "bottom_right"
        (3 / 100) none none 0 0).1.mem 0 =
      (⟨fun _ => ⟨8, 8, fun _ _ => ⟨0, 0, 0, 255⟩⟩, 2⟩ :
        ImageProcessor.Heap).mem 0 ∧
    (ImageProcessor.paste_logo
        ⟨fun _ => ⟨8, 8, fun _ _ => ⟨0, 0, 0, 255⟩⟩, 2⟩ 0 1 "bottom_right"
        (3 / 100) none none 0 0).2 = 2 :=
  ⟨(c10_paste_logo_no_mutation
      ⟨fun _ => ⟨8, 8, fun _ _ => ⟨0, 0, 0, 255⟩⟩, 2⟩ 0 1 "bottom_right"
      (3 / 100) none none 0 0 (by decide) (by decide)).1,
    (c10_paste_logo_no_mutation
      ⟨fun _ => ⟨8, 8, fun _ _ => ⟨0, 0, 0, 255⟩⟩, 2⟩ 0 1 "bottom_right"
      (3 / 100) none none 0 0 (by decide) (by decide)).2.2.1⟩

end ImageTool
